import Mathlib

/-!
# Shallow embedding of the chip8emu CHIP-8 interpreter core

This file embeds the interpreter core of `chip8/chip8.go` (package `chip8`)
and proves properties of it.

Modelling conventions:
* Go's fixed-width integers are embedded as `Nat` with explicit wraparound
  (`% 256` for `byte`/`uint8`, `% 65536` for `uint16`) at exactly the points
  where the Go arithmetic wraps.
* The Go arrays `Memory [4096]byte`, `V [16]byte`, `Stack [16]uint16`,
  `Screen [64][32]uint8` and `keyboard [16]bool` are embedded as total
  functions out of `Nat`; every place where the Go code indexes an array
  with a value that can exceed the array length carries an explicit bounds
  test mirroring Go's runtime bounds check, and an out-of-range index is a
  runtime panic (`StepResult.panic`, or `none` for the `Option`-valued
  entry points).  A Go panic aborts the process, so the partially mutated
  state at the moment of a panic is not observable and is not carried.
* The pause gate `wg *sync.WaitGroup` holds no data beyond being nil or
  non-nil: it is embedded as the `paused : Bool` field.  `Resume` on a nil
  `wg` dereferences a nil pointer, a runtime panic, hence `Resume` is
  `Option`-valued.
* The beep callback `beepCallback func(bool)` is embedded as the
  `beepRegistered : Bool` field plus explicit beep events in the result of
  the step functions (`some true` for `beepCallback(true)`, a `Bool` result
  for the timer's `beepCallback(false)`).  Invoking the callback while it
  is nil is a runtime panic.
* `rand.Intn(256)` in the `Cxkk` handler is embedded as an oracle argument
  `rnd` to `executeOpcode`.
-/

set_option maxHeartbeats 1000000

namespace Chip8Emu

/-- Machine state of the Go `Chip8` struct.  Field names follow the source.
`beepRegistered` stands for `beepCallback != nil` and `paused` for
`wg != nil`; `opcode`, `x`, `y`, `n`, `kk`, `nnn` are the decode latches
set by `fetchOpcode`. -/
structure Chip8 where
  schipMode : Bool
  Screen : Nat → Nat → Nat
  Memory : Nat → Nat
  V : Nat → Nat
  PC : Nat
  I : Nat
  SP : Nat
  Stack : Nat → Nat
  DT : Nat
  ST : Nat
  DrawFlag : Bool
  beepRegistered : Bool
  keyboard : Nat → Bool
  lastKey : Option Nat
  opcode : Nat
  x : Nat
  y : Nat
  n : Nat
  kk : Nat
  nnn : Nat
  paused : Bool

/-- Outcome of one `executeOpcode` invocation.
`ok s beep` is a normal return (`beep = some true` when the handler invoked
`beepCallback(true)`); `err op` is the returned `unknown opcode` error
carrying the raw opcode; `panic` is a Go runtime panic (index out of range
or nil-callback call); `blocks` is the unbounded `Fx0A` wait loop entered
with no pending key. -/
inductive StepResult where
  | ok (s : Chip8) (beep : Option Bool)
  | err (op : Nat)
  | panic
  | blocks

/-- The built-in hexadecimal sprite font, `fontSet` in the source. -/
def fontSet : List Nat :=
  [0xF0, 0x90, 0x90, 0x90, 0xF0,
   0x20, 0x60, 0x20, 0x20, 0x70,
   0xF0, 0x10, 0xF0, 0x80, 0xF0,
   0xF0, 0x10, 0xF0, 0x10, 0xF0,
   0x90, 0x90, 0xF0, 0x10, 0x10,
   0xF0, 0x80, 0xF0, 0x10, 0xF0,
   0xF0, 0x80, 0xF0, 0x90, 0xF0,
   0xF0, 0x10, 0x20, 0x40, 0x40,
   0xF0, 0x90, 0xF0, 0x90, 0xF0,
   0xF0, 0x90, 0xF0, 0x10, 0xF0,
   0xF0, 0x90, 0xF0, 0x90, 0x90,
   0xE0, 0x90, 0xE0, 0x90, 0xE0,
   0xF0, 0x80, 0x80, 0x80, 0xF0,
   0xE0, 0x90, 0x90, 0x90, 0xE0,
   0xF0, 0x80, 0xF0, 0x80, 0xF0,
   0xF0, 0x80, 0xF0, 0x80, 0x80]

/-- Store the bytes of a list into memory at consecutive addresses, the
`for i, b := range bytes` copy loop shared by `Initialize` (font) and
`LoadRomBytes` (ROM). -/
def storeList : (Nat → Nat) → Nat → List Nat → (Nat → Nat)
  | mem, _, [] => mem
  | mem, off, b :: rest => storeList (Function.update mem off b) (off + 1) rest

/-- `Initialize`: font load at 0x050, `schipMode = true`, `PC = 0x200`.
The `startClock()` goroutine it spawns is the timer loop, embedded
separately as `decrementTimers`. -/
def Initialize (s : Chip8) : Chip8 :=
  { s with Memory := storeList s.Memory 0x050 fontSet
           schipMode := true
           PC := 0x200 }

/-- `SetBeepHandler`: registers the beep callback. -/
def SetBeepHandler (s : Chip8) : Chip8 :=
  { s with beepRegistered := true }

/-- `Pause`: a no-op when the gate is already engaged, otherwise engages it. -/
def Pause (s : Chip8) : Chip8 :=
  if s.paused = true then s else { s with paused := true }

/-- `Resume`: `ch.wg.Done(); ch.wg = nil`.  When `wg` is nil (machine not
paused) the method call on the nil pointer is a runtime panic, hence
`none`. -/
def Resume (s : Chip8) : Option Chip8 :=
  if s.paused = true then some { s with paused := false } else none

/-- `LoadRomBytes`: copies the byte sequence to memory starting at 0x200.
The Go loop has no size check; as soon as `i + 0x200` reaches 4096 the
write `ch.Memory[i+0x200] = b` panics, which happens exactly when the
input is longer than `4096 - 0x200 = 3584` bytes. -/
def LoadRomBytes (bs : List Nat) (s : Chip8) : Option Chip8 :=
  if bs.length ≤ 3584 then some { s with Memory := storeList s.Memory 0x200 bs }
  else none

/-- `KeyDown`: records the key in `lastKey` and sets its latch state.  The
write `ch.keyboard[key] = true` bounds-checks `key` against 16; an index
outside 0–15 is a runtime panic (after `lastKey` was already assigned, but
the panic aborts the process, so only the panic is observable). -/
def KeyDown (key : Nat) (s : Chip8) : Option Chip8 :=
  if key < 16 then
    some { s with lastKey := some key
                  keyboard := Function.update s.keyboard key true }
  else none

/-- `KeyUp`: clears the key's latch state; an index outside 0–15 panics. -/
def KeyUp (key : Nat) (s : Chip8) : Option Chip8 :=
  if key < 16 then
    some { s with keyboard := Function.update s.keyboard key false }
  else none

/-- `fetchOpcode`: reads the 2-byte big-endian instruction word at `PC`,
fills the decode latches and advances `PC` by 2.  Each memory read is
bounds-checked against 4096 (the `x % 256` on the byte reads states that a
`[4096]byte` cell holds a byte).  The Go field extractions
`pc1Byte & 0x0F`, `pcByte & 0x0F`, `(pc1Byte >> 4) & 0x0F`,
`opcode & 0x0FFF` are the corresponding `%`/`/` forms on `Nat`. -/
def fetchOpcode (s : Chip8) : Option Chip8 :=
  if s.PC % 65536 < 4096 ∧ (s.PC + 1) % 65536 < 4096 then
    let hb := s.Memory (s.PC % 65536) % 256
    let lb := s.Memory ((s.PC + 1) % 65536) % 256
    let op := hb * 256 + lb
    some { s with opcode := op
                  n := lb % 16
                  x := hb % 16
                  y := lb / 16 % 16
                  kk := lb
                  nnn := op % 4096
                  PC := (s.PC + 2) % 65536 }
  else none

/-- 8-bit subtraction `a - b` of two byte values, the Go `byte` subtraction
with wraparound. -/
def byteSub (a b : Nat) : Nat := (a % 256 + 256 - b % 256) % 256

/-- Screen wrap of the Dxyn column index: `(col + byte(7-bitInd)) % 64` with
the `byte` addition wrapping at 256 first. -/
def px (col j : Nat) : Nat := (col + (7 - j)) % 256 % 64

/-- Screen wrap of the Dxyn row index: `(row + byte(byteInd)) % 32`. -/
def py (row i : Nat) : Nat := (row + i) % 256 % 32

/-- Point update of the two-dimensional screen function. -/
def upd2 (f : Nat → Nat → Nat) (a b v : Nat) : Nat → Nat → Nat :=
  fun p q => if p = a ∧ q = b then v else f p q

/-- One iteration of the inner Dxyn loop at bit index `j` of sprite row `i`
with row byte `sb`: extract the bit (`(spriteByte >> bitInd) & 0x1`), set
the collision flag if both the bit and the current pixel are 1, and XOR
the bit onto the pixel.  The accumulator is the pair (screen, VF). -/
def drawBitStep (col row sb i j : Nat) (acc : (Nat → Nat → Nat) × Nat) :
    (Nat → Nat → Nat) × Nat :=
  (upd2 acc.1 (px col j) (py row i)
     (Nat.xor (acc.1 (px col j) (py row i)) (sb / 2 ^ j % 2)),
   if sb / 2 ^ j % 2 = 1 ∧ acc.1 (px col j) (py row i) = 1 then 1 else acc.2)

/-- A counted loop running `f start`, `f (start+1)`, …, `f (start+k-1)` in
order, the shape of the Go `for` loops of the executor. -/
def loopN {α : Type} (f : Nat → α → α) : Nat → Nat → α → α
  | _, 0, a => a
  | i, k + 1, a => loopN f (i + 1) k (f i a)

/-- One sprite row of Dxyn: fetch the row byte `Memory[I+byteInd]` once and
run the 8-bit inner loop. -/
def rowStep (col row : Nat) (mem : Nat → Nat) (I i : Nat)
    (acc : (Nat → Nat → Nat) × Nat) : (Nat → Nat → Nat) × Nat :=
  loopN (drawBitStep col row (mem (I + i)) i) 0 8 acc

/-- The full Dxyn double loop over `n` sprite rows, starting from the given
screen and from VF already reset to 0. -/
def drawSpriteLoop (col row : Nat) (mem : Nat → Nat) (I n : Nat)
    (scr : Nat → Nat → Nat) : (Nat → Nat → Nat) × Nat :=
  loopN (rowStep col row mem I) 0 n (scr, 0)

/-- All memory indices `(I + a) % 65536` for `a = 0..x` (the `uint16`
additions of the Fx55/Fx65 loops) are within the 4096-byte memory; when one
is not, the first out-of-range access in the Go loop panics. -/
def regIndicesOk (I xr : Nat) : Bool :=
  (List.range (xr + 1)).all fun a => decide ((I + a) % 65536 < 4096)

/-- The Fx55 store loop `Memory[I+a] = V[a]` for `a = 0..x`. -/
def storeRegsLoop (V : Nat → Nat) (I xr : Nat) (mem : Nat → Nat) : Nat → Nat :=
  loopN (fun a m => Function.update m ((I + a) % 65536) (V a)) 0 (xr + 1) mem

/-- The Fx65 load loop `V[a] = Memory[I+a]` for `a = 0..x`. -/
def loadRegsLoop (mem : Nat → Nat) (I xr : Nat) (V : Nat → Nat) : Nat → Nat :=
  loopN (fun a v => Function.update v a (mem ((I + a) % 65536))) 0 (xr + 1) V

/-- `executeOpcode`: the dispatch on `opcode & 0xF000` (here
`opcode / 4096 % 16`, identical for the 16-bit opcodes `fetchOpcode`
produces) followed by the group's secondary switch, exactly mirroring the
Go `switch` nesting.  Note that, as in the source, group `0x5000` has no
secondary switch, group `0x0000` and the `E`/`F` groups switch on `kk`,
and groups `8`/`9` switch on `n`. -/
def executeOpcode (rnd : Nat) (s : Chip8) : StepResult :=
  let hi := s.opcode / 4096 % 16
  if hi = 0 then
    if s.kk = 0xE0 then
      StepResult.ok { s with Screen := fun _ _ => 0 } none
    else if s.kk = 0xEE then
      if s.SP % 65536 < 16 then
        StepResult.ok { s with PC := s.Stack (s.SP % 65536)
                               SP := (s.SP + 65536 - 1) % 65536 } none
      else StepResult.panic
    else StepResult.err s.opcode
  else if hi = 1 then
    StepResult.ok { s with PC := s.nnn } none
  else if hi = 2 then
    let sp := (s.SP + 1) % 65536
    if sp < 16 then
      StepResult.ok { s with SP := sp
                             Stack := Function.update s.Stack sp s.PC
                             PC := s.nnn } none
    else StepResult.panic
  else if hi = 3 then
    StepResult.ok (if s.V s.x = s.kk then { s with PC := (s.PC + 2) % 65536 } else s) none
  else if hi = 4 then
    StepResult.ok (if s.V s.x ≠ s.kk then { s with PC := (s.PC + 2) % 65536 } else s) none
  else if hi = 5 then
    StepResult.ok (if s.V s.x = s.V s.y then { s with PC := (s.PC + 2) % 65536 } else s) none
  else if hi = 6 then
    StepResult.ok { s with V := Function.update s.V s.x (s.kk % 256) } none
  else if hi = 7 then
    StepResult.ok { s with V := Function.update s.V s.x ((s.V s.x + s.kk) % 256) } none
  else if hi = 8 then
    if s.n = 0 then
      StepResult.ok { s with V := Function.update s.V s.x (s.V s.y) } none
    else if s.n = 1 then
      StepResult.ok { s with V := Function.update s.V s.x (Nat.lor (s.V s.x) (s.V s.y)) } none
    else if s.n = 2 then
      StepResult.ok { s with V := Function.update s.V s.x (Nat.land (s.V s.x) (s.V s.y)) } none
    else if s.n = 3 then
      StepResult.ok { s with V := Function.update s.V s.x (Nat.xor (s.V s.x) (s.V s.y)) } none
    else if s.n = 4 then
      let v1 := Function.update s.V 15 (if 255 < s.V s.x + s.V s.y then 1 else 0)
      StepResult.ok { s with V := Function.update v1 s.x ((v1 s.x + v1 s.y) % 256) } none
    else if s.n = 5 then
      let v1 := Function.update s.V 15 (if s.V s.y < s.V s.x then 1 else 0)
      StepResult.ok { s with V := Function.update v1 s.x (byteSub (v1 s.x) (v1 s.y)) } none
    else if s.n = 6 then
      let v1 := Function.update s.V 15 (s.V s.x % 2)
      StepResult.ok { s with V := Function.update v1 s.x (v1 s.x / 2) } none
    else if s.n = 7 then
      let v1 := Function.update s.V 15 (if s.V s.x < s.V s.y then 1 else 0)
      StepResult.ok { s with V := Function.update v1 s.x (byteSub (v1 s.y) (v1 s.x)) } none
    else if s.n = 14 then
      let v1 := Function.update s.V 15 (s.V s.x / 128 % 2)
      StepResult.ok { s with V := Function.update v1 s.x (v1 s.x * 2 % 256) } none
    else StepResult.err s.opcode
  else if hi = 9 then
    if s.n = 0 then
      StepResult.ok (if s.V s.x ≠ s.V s.y then { s with PC := (s.PC + 2) % 65536 } else s) none
    else StepResult.err s.opcode
  else if hi = 10 then
    StepResult.ok { s with I := s.nnn } none
  else if hi = 11 then
    StepResult.ok { s with PC := (s.V 0 + s.nnn) % 65536 } none
  else if hi = 12 then
    StepResult.ok { s with V := Function.update s.V s.x (Nat.land (rnd % 256) s.kk) } none
  else if hi = 13 then
    if s.n = 0 ∨ s.I + s.n ≤ 4096 then
      let dr := drawSpriteLoop (s.V s.x) (s.V s.y) s.Memory s.I s.n s.Screen
      StepResult.ok { s with Screen := dr.1
                             V := Function.update s.V 15 dr.2
                             DrawFlag := true } none
    else StepResult.panic
  else if hi = 14 then
    if s.kk = 0x9E then
      if s.V s.x < 16 then
        StepResult.ok (if s.keyboard (s.V s.x) = true then { s with PC := (s.PC + 2) % 65536 } else s) none
      else StepResult.panic
    else if s.kk = 0xA1 then
      if s.V s.x < 16 then
        StepResult.ok (if s.keyboard (s.V s.x) = false then { s with PC := (s.PC + 2) % 65536 } else s) none
      else StepResult.panic
    else StepResult.err s.opcode
  else if hi = 15 then
    if s.kk = 0x07 then
      StepResult.ok { s with V := Function.update s.V s.x s.DT } none
    else if s.kk = 0x0A then
      match s.lastKey with
      | some k => StepResult.ok { s with V := Function.update s.V s.x k
                                         lastKey := none } none
      | none => StepResult.blocks
    else if s.kk = 0x15 then
      StepResult.ok { s with DT := s.V s.x } none
    else if s.kk = 0x18 then
      if 0 < s.V s.x then
        if s.beepRegistered = true then
          StepResult.ok { s with ST := s.V s.x } (some true)
        else StepResult.panic
      else StepResult.ok { s with ST := s.V s.x } none
    else if s.kk = 0x1E then
      StepResult.ok { s with I := (s.I + s.V s.x) % 65536 } none
    else if s.kk = 0x29 then
      StepResult.ok { s with I := (s.V s.x * 5 + 0x050) % 65536 } none
    else if s.kk = 0x33 then
      if s.I % 65536 < 4096 ∧ (s.I + 1) % 65536 < 4096 ∧ (s.I + 2) % 65536 < 4096 then
        let m1 := Function.update s.Memory (s.I % 65536) (s.V s.x % 1000 / 100)
        let m2 := Function.update m1 ((s.I + 1) % 65536) (s.V s.x % 100 / 10)
        let m3 := Function.update m2 ((s.I + 2) % 65536) (s.V s.x % 10)
        StepResult.ok { s with Memory := m3 } none
      else StepResult.panic
    else if s.kk = 0x55 then
      if regIndicesOk s.I s.x = true then
        StepResult.ok { s with Memory := storeRegsLoop s.V s.I s.x s.Memory
                               I := if s.schipMode = false then (s.I + s.x + 1) % 65536 else s.I } none
      else StepResult.panic
    else if s.kk = 0x65 then
      if regIndicesOk s.I s.x = true then
        StepResult.ok { s with V := loadRegsLoop s.Memory s.I s.x s.V
                               I := if s.schipMode = false then (s.I + s.x + 1) % 65536 else s.I } none
      else StepResult.panic
    else StepResult.err s.opcode
  else StepResult.err s.opcode

/-- `decrementTimers`: one 60 Hz tick.  The second component records whether
`beepCallback(false)` was invoked (the stop transition), which the Go code
guards with `ch.beepCallback != nil`. -/
def decrementTimers (s : Chip8) : Chip8 × Bool :=
  if 0 < s.ST then
    ({ s with ST := s.ST - 1
              DT := if 0 < s.DT then s.DT - 1 else s.DT },
     if s.ST - 1 = 0 ∧ s.beepRegistered = true then true else false)
  else
    ({ s with DT := if 0 < s.DT then s.DT - 1 else s.DT }, false)

/-- The state part of one timer tick. -/
def tickState (s : Chip8) : Chip8 := (decrementTimers s).1

/-- `k` consecutive timer ticks. -/
def timerTicks : Nat → Chip8 → Chip8
  | 0, s => s
  | k + 1, s => timerTicks k (tickState s)

/-- The set of instruction words the Go dispatch recognizes: the reachable
non-`default` branches of `executeOpcode`.  Every high nibble has a case;
group 0 is keyed on the low byte, groups 8 and 9 on the low nibble, groups
E and F on the low byte, and group 5 (like 1,2,3,4,6,7,A,B,C,D) accepts
every word of the group. -/
def codeRecognized (op : Nat) : Bool :=
  let hi := op / 4096 % 16
  if hi = 0 then decide (op % 256 = 0xE0 ∨ op % 256 = 0xEE)
  else if hi = 8 then decide (op % 16 < 8 ∨ op % 16 = 14)
  else if hi = 9 then decide (op % 16 = 0)
  else if hi = 14 then decide (op % 256 = 0x9E ∨ op % 256 = 0xA1)
  else if hi = 15 then decide (op % 256 = 0x07 ∨ op % 256 = 0x0A ∨ op % 256 = 0x15 ∨
    op % 256 = 0x18 ∨ op % 256 = 0x1E ∨ op % 256 = 0x29 ∨ op % 256 = 0x33 ∨
    op % 256 = 0x55 ∨ op % 256 = 0x65)
  else true

/-- The dispatch table of the specification (§4.2), for comparison with
`codeRecognized`: the table lists `5xy0` (not `5xyn`), `00E0` and `00EE`
as exact words, and otherwise the same patterns the code implements. -/
def specTableRecognized (op : Nat) : Bool :=
  let hi := op / 4096 % 16
  if hi = 0 then decide (op = 0x00E0 ∨ op = 0x00EE)
  else if hi = 5 then decide (op % 16 = 0)
  else if hi = 8 then decide (op % 16 < 8 ∨ op % 16 = 14)
  else if hi = 9 then decide (op % 16 = 0)
  else if hi = 14 then decide (op % 256 = 0x9E ∨ op % 256 = 0xA1)
  else if hi = 15 then decide (op % 256 = 0x07 ∨ op % 256 = 0x0A ∨ op % 256 = 0x15 ∨
    op % 256 = 0x18 ∨ op % 256 = 0x1E ∨ op % 256 = 0x29 ∨ op % 256 = 0x33 ∨
    op % 256 = 0x55 ∨ op % 256 = 0x65)
  else true

/-- A machine state with everything cleared, used as the base of the
concrete evaluation states below. -/
def chip0 : Chip8 :=
  { schipMode := true
    Screen := fun _ _ => 0
    Memory := fun _ => 0
    V := fun _ => 0
    PC := 0x200
    I := 0
    SP := 0
    Stack := fun _ => 0
    DT := 0
    ST := 0
    DrawFlag := false
    beepRegistered := false
    keyboard := fun _ => false
    lastKey := none
    opcode := 0
    x := 0
    y := 0
    n := 0
    kk := 0
    nnn := 0
    paused := false }

/-- Post-fetch state for the instruction word 0x5121: group 5 with low
nibble 1, which the specification's dispatch table does not list. -/
def c1sBad : Chip8 :=
  { chip0 with opcode := 0x5121, x := 1, y := 2, n := 1, kk := 0x21, nnn := 0x121, PC := 0x202 }

/-- Pre-fetch state whose program word at 0x200 is 0x8008 (group 8 with
unmapped low nibble 8). -/
def c1wPre : Chip8 :=
  { chip0 with Memory := fun a => if a = 512 then 0x80 else if a = 513 then 8 else 0 }

/-- The state `fetchOpcode` produces from `c1wPre`. -/
def c1wPost : Chip8 :=
  { c1wPre with opcode := 0x8008, n := 8, x := 0, y := 0, kk := 8, nnn := 8, PC := 514 }

/-- Post-fetch state for 00E0 with a lit screen and a clear redraw flag. -/
def c2sBad : Chip8 :=
  { chip0 with opcode := 0x00E0, kk := 0xE0, Screen := fun _ _ => 1 }

/-- Post-fetch state for 00E0 used to instantiate the amended claim. -/
def c2w : Chip8 :=
  { chip0 with opcode := 0x01E0, x := 1, kk := 0xE0, nnn := 0x1E0 }

/-- Post-fetch state for 8F14: an ALU add whose destination is VF itself. -/
def c4sBad : Chip8 :=
  { chip0 with opcode := 0x8F14, x := 15, y := 1, n := 4, kk := 0x14, nnn := 0xF14,
               V := fun i => if i = 15 then 10 else if i = 1 then 5 else 0 }

/-- Post-fetch state for 8124 with V1 = 0xFF, V2 = 0x01, the carry example
of the specification. -/
def c4w : Chip8 :=
  { chip0 with opcode := 0x8124, x := 1, y := 2, n := 4, kk := 0x24, nnn := 0x124,
               V := fun i => if i = 1 then 0xFF else if i = 2 then 1 else 0 }

/-- Post-fetch state for D011: draw the one-row sprite 0x80 at (V0, V1). -/
def c3w : Chip8 :=
  { chip0 with opcode := 0xD011, x := 0, y := 1, n := 1, kk := 0x11, nnn := 0x011,
               V := fun i => if i = 0 then 2 else if i = 1 then 3 else 0,
               Memory := fun a => if a = 0 then 0x80 else 0 }

/-- Post-fetch state for F255 (store V0..V2 at I = 0x300). -/
def c5w : Chip8 :=
  { chip0 with opcode := 0xF255, x := 2, y := 5, n := 5, kk := 0x55, nnn := 0x255, I := 0x300,
               V := fun i => if i = 0 then 7 else if i = 1 then 9 else if i = 2 then 11 else 0 }

/-- A machine with the sound timer about to hit zero and a registered beep
callback. -/
def c9w : Chip8 := { chip0 with beepRegistered := true, ST := 1, DT := 60 }

/-- Post-fetch state for F118 (set ST from V1 = 3) with no registered beep
callback. -/
def c10w : Chip8 :=
  { chip0 with opcode := 0xF118, x := 1, kk := 0x18, nnn := 0x118,
               V := fun i => if i = 1 then 3 else 0 }

/-- VF of a normal step result (4242 on the other outcomes). -/
def resVF : StepResult → Nat
  | StepResult.ok s _ => s.V 15
  | _ => 4242

/-- Redraw flag of a normal step result (`true` on the other outcomes). -/
def resDrawFlag : StepResult → Bool
  | StepResult.ok s _ => s.DrawFlag
  | _ => true

/-- Whether a step returned the unknown-opcode error. -/
def resIsErr : StepResult → Bool
  | StepResult.err _ => true
  | _ => false

/-- Whether a step returned normally. -/
def resIsOk : StepResult → Bool
  | StepResult.ok _ _ => true
  | _ => false

/-- One screen pixel of a normal step result (4242 on the other outcomes). -/
def resPixel (r : StepResult) (p q : Nat) : Nat :=
  match r with
  | StepResult.ok s _ => s.Screen p q
  | _ => 4242

theorem loopN_snoc {α : Type} (f : Nat → α → α) :
    ∀ (k i : Nat) (a : α), loopN f i (k + 1) a = f (i + k) (loopN f i k a) := by
  intro k
  induction k with
  | zero => intro i a; rfl
  | succ k ih =>
    intro i a
    rw [loopN, ih, loopN]
    have h : i + 1 + k = i + (k + 1) := by omega
    rw [h]

theorem storeList_lt : ∀ (bs : List Nat) (mem : Nat → Nat) (off a : Nat),
    a < off → storeList mem off bs a = mem a := by
  intro bs
  induction bs with
  | nil => intro mem off a _; rfl
  | cons b rest ih =>
    intro mem off a h
    rw [storeList, ih _ _ _ (by omega), Function.update_noteq (by omega)]

theorem storeList_ge : ∀ (bs : List Nat) (mem : Nat → Nat) (off a : Nat),
    off + bs.length ≤ a → storeList mem off bs a = mem a := by
  intro bs
  induction bs with
  | nil => intro mem off a _; rfl
  | cons b rest ih =>
    intro mem off a h
    rw [List.length_cons] at h
    rw [storeList, ih _ _ _ (by omega), Function.update_noteq (by omega)]

theorem storeList_get : ∀ (bs : List Nat) (mem : Nat → Nat) (off k : Nat),
    k < bs.length → storeList mem off bs (off + k) = bs.getD k 0 := by
  intro bs
  induction bs with
  | nil => intro mem off k h; simp at h
  | cons b rest ih =>
    intro mem off k h
    rw [storeList]
    cases k with
    | zero =>
      rw [storeList_lt rest _ (off + 1) (off + 0) (by omega)]
      simp [Function.update_same]
    | succ k =>
      have h2 : off + (k + 1) = (off + 1) + k := by omega
      rw [h2, ih _ _ _ (by simpa using h)]
      rfl

/-- Claim C2 counterexample: executing 00E0 on a lit screen with the redraw
flag clear returns normally with the screen cleared, but the redraw flag is
still `false`, while the claim requires it to be set. -/
theorem c2_counterexample :
    resPixel (executeOpcode 0 c2sBad) 0 0 = 0 ∧ c2sBad.Screen 0 0 = 1 ∧
    resDrawFlag (executeOpcode 0 c2sBad) = false ∧ c2sBad.DrawFlag = false := by
  refine ⟨?_, rfl, ?_, rfl⟩ <;> rfl

/-- Claim C2 (amended): executing opcode 00E0 sets every pixel of the
screen grid to off; the redraw flag is left unchanged (the `00E0` handler
does not set `DrawFlag`; only `Dxyn` does). -/
theorem c2_amended (rnd : Nat) (s : Chip8)
    (hhi : s.opcode / 4096 % 16 = 0) (hkk : s.kk = 0xE0) :
    ∃ s2, executeOpcode rnd s = StepResult.ok s2 none ∧
      (∀ p q, s2.Screen p q = 0) ∧ s2.DrawFlag = s.DrawFlag ∧
      s2.V = s.V ∧ s2.PC = s.PC ∧ s2.Memory = s.Memory := by
  refine ⟨{ s with Screen := fun _ _ => 0 }, ?_, fun p q => rfl, rfl, rfl, rfl, rfl⟩
  simp [executeOpcode, hhi, hkk]

/-- Claim C2 witness: the amended claim at the concrete 00E0 state `c2w`. -/
theorem c2_witness :
    ∃ s2, executeOpcode 0 c2w = StepResult.ok s2 none ∧
      (∀ p q, s2.Screen p q = 0) ∧ s2.DrawFlag = c2w.DrawFlag ∧
      s2.V = c2w.V ∧ s2.PC = c2w.PC ∧ s2.Memory = c2w.Memory :=
  c2_amended 0 c2w rfl rfl

/-- Claim C6 counterexample: `Resume` on the non-paused machine `chip0`
does not complete normally: `ch.wg.Done()` dereferences the nil `wg`
pointer, a runtime panic (modelled by `none`), while the claim requires a
normal no-op return. -/
theorem c6_counterexample : Resume chip0 = none ∧ chip0.paused = false :=
  ⟨rfl, rfl⟩

/-- Claim C6 (amended): `Resume` on a paused machine releases the gate
(and `Pause` then `Resume` restores the original state), but `Resume` on a
machine that is not paused panics on the nil `wg` pointer instead of being
a no-op. -/
theorem c6_amended (s : Chip8) :
    (s.paused = false → Resume s = none ∧ Resume (Pause s) = some s) ∧
    (s.paused = true → Resume s = some { s with paused := false }) := by
  constructor
  · intro h
    constructor
    · simp [Resume, h]
    · cases s
      simp_all [Pause, Resume]
  · intro h
    simp [Resume, h]

/-- Claim C6 witness: the amended claim at the concrete state `chip0`. -/
theorem c6_witness : Resume chip0 = none ∧ Resume (Pause chip0) = some chip0 :=
  (c6_amended chip0).1 rfl

/-- Claim C7 counterexample: a 3585-byte ROM makes the `LoadRomBytes` copy
loop index `Memory[4096]`, a runtime bounds panic (modelled by `none`);
nothing is surfaced as a `RomLoadError`-style error return, while the
claim requires the oversized input to fail with an error. -/
theorem c7_counterexample : LoadRomBytes (List.replicate 3585 0) chip0 = none := by
  rw [LoadRomBytes, List.length_replicate]
  simp

/-- Claim C7 (amended): input sequences of length at most 3584 are copied
verbatim to memory starting at 0x200 with all other memory untouched (in
particular nothing past the end of the 4096-byte memory is written);
longer sequences make the unchecked copy loop panic with an out-of-range
index instead of being rejected with an error. -/
theorem c7_amended (bs : List Nat) (s : Chip8) :
    (bs.length ≤ 3584 →
      ∃ s2, LoadRomBytes bs s = some s2 ∧
        (∀ k, k < bs.length → s2.Memory (0x200 + k) = bs.getD k 0) ∧
        (∀ a, a < 0x200 → s2.Memory a = s.Memory a) ∧
        (∀ a, 0x200 + bs.length ≤ a → s2.Memory a = s.Memory a)) ∧
    (3584 < bs.length → LoadRomBytes bs s = none) := by
  constructor
  · intro h
    refine ⟨{ s with Memory := storeList s.Memory 0x200 bs }, ?_, ?_, ?_, ?_⟩
    · simp [LoadRomBytes, h]
    · intro k hk
      exact storeList_get bs s.Memory 0x200 k hk
    · intro a ha
      exact storeList_lt bs s.Memory 0x200 a ha
    · intro a ha
      exact storeList_ge bs s.Memory 0x200 a ha
  · intro h
    rw [LoadRomBytes, if_neg (by omega)]

/-- Claim C7 witness: the amended claim at a 3-byte ROM and at a 3600-byte
ROM. -/
theorem c7_witness :
    (∃ s2, LoadRomBytes [1, 2, 3] chip0 = some s2 ∧
      (∀ k, k < [1, 2, 3].length → s2.Memory (0x200 + k) = [1, 2, 3].getD k 0) ∧
      (∀ a, a < 0x200 → s2.Memory a = chip0.Memory a) ∧
      (∀ a, 0x200 + [1, 2, 3].length ≤ a → s2.Memory a = chip0.Memory a)) ∧
    LoadRomBytes (List.replicate 3600 7) chip0 = none :=
  ⟨(c7_amended [1, 2, 3] chip0).1 (by norm_num),
   (c7_amended (List.replicate 3600 7) chip0).2 (by rw [List.length_replicate]; norm_num)⟩

/-- Claim C8 counterexample: key index 16 is outside 0–15, and both calls
panic with an out-of-range index on `keyboard[16]` (modelled by `none`)
instead of rejecting the index and leaving the latch unchanged. -/
theorem c8_counterexample : KeyDown 16 chip0 = none ∧ KeyUp 16 chip0 = none :=
  ⟨rfl, rfl⟩

/-- Claim C8 (amended): for indices 0–15, key-down sets the key state to
true (and records the key in the last-key slot) and key-up sets it to
false, leaving the other keys unchanged; an index outside 0–15 is not
rejected: both calls panic with an out-of-range index (`KeyDown` after
having already written the last-key slot, but the panic aborts the
process). -/
theorem c8_amended (k : Nat) (s : Chip8) :
    (k < 16 →
      (∃ s1, KeyDown k s = some s1 ∧ s1.keyboard k = true ∧ s1.lastKey = some k ∧
        ∀ j, j ≠ k → s1.keyboard j = s.keyboard j) ∧
      (∃ s2, KeyUp k s = some s2 ∧ s2.keyboard k = false ∧
        ∀ j, j ≠ k → s2.keyboard j = s.keyboard j)) ∧
    (16 ≤ k → KeyDown k s = none ∧ KeyUp k s = none) := by
  constructor
  · intro h
    constructor
    · refine ⟨{ s with lastKey := some k,
                       keyboard := Function.update s.keyboard k true }, ?_, ?_, rfl, ?_⟩
      · simp [KeyDown, h]
      · simp [Function.update_same]
      · intro j hj
        simp [Function.update_noteq hj]
    · refine ⟨{ s with keyboard := Function.update s.keyboard k false }, ?_, ?_, ?_⟩
      · simp [KeyUp, h]
      · simp [Function.update_same]
      · intro j hj
        simp [Function.update_noteq hj]
  · intro h
    exact ⟨by rw [KeyDown, if_neg (by omega)], by rw [KeyUp, if_neg (by omega)]⟩

/-- Claim C8 witness: the amended claim at key index 3 on `chip0`. -/
theorem c8_witness :
    (∃ s1, KeyDown 3 chip0 = some s1 ∧ s1.keyboard 3 = true ∧ s1.lastKey = some 3 ∧
      ∀ j, j ≠ 3 → s1.keyboard j = chip0.keyboard j) ∧
    (∃ s2, KeyUp 3 chip0 = some s2 ∧ s2.keyboard 3 = false ∧
      ∀ j, j ≠ 3 → s2.keyboard j = chip0.keyboard j) :=
  (c8_amended 3 chip0).1 (by norm_num)

theorem tickState_DT (s : Chip8) : (tickState s).DT = s.DT - 1 := by
  unfold tickState decrementTimers
  by_cases h : 0 < s.ST <;> by_cases h2 : 0 < s.DT <;> simp [h, h2] <;> omega

theorem timerTicks_DT (k : Nat) : ∀ s : Chip8, (timerTicks k s).DT = s.DT - k := by
  induction k with
  | zero => intro s; rfl
  | succ k ih =>
    intro s
    rw [timerTicks, ih, tickState_DT]
    omega

/-- Claim C9 (confirmed): with a registered beep sink, each timer tick
decrements ST by one exactly when ST > 0, emits the stop signal exactly
when ST transitions to 0 (that is, when ST was 1), decrements DT by one
exactly when DT > 0, never increments either timer, changes nothing else,
and 60 ticks from DT = 60 end at DT = 0. -/
theorem c9_confirmed (s : Chip8) (hreg : s.beepRegistered = true) :
    (0 < s.ST → (decrementTimers s).1.ST = s.ST - 1) ∧
    (s.ST = 0 → (decrementTimers s).1.ST = 0) ∧
    ((decrementTimers s).2 = true ↔ s.ST = 1) ∧
    (0 < s.DT → (decrementTimers s).1.DT = s.DT - 1) ∧
    (s.DT = 0 → (decrementTimers s).1.DT = 0) ∧
    (decrementTimers s).1.ST ≤ s.ST ∧ (decrementTimers s).1.DT ≤ s.DT ∧
    (decrementTimers s).1.V = s.V ∧ (decrementTimers s).1.Memory = s.Memory ∧
    (decrementTimers s).1.PC = s.PC ∧ (decrementTimers s).1.I = s.I ∧
    (decrementTimers s).1.SP = s.SP ∧ (decrementTimers s).1.Stack = s.Stack ∧
    (decrementTimers s).1.Screen = s.Screen ∧ (decrementTimers s).1.DrawFlag = s.DrawFlag ∧
    (decrementTimers s).1.keyboard = s.keyboard ∧ (decrementTimers s).1.lastKey = s.lastKey ∧
    (decrementTimers s).1.paused = s.paused ∧
    (∀ t : Chip8, t.DT = 60 → (timerTicks 60 t).DT = 0) := by
  have hST : ∀ u : Chip8, (decrementTimers u).1.ST = u.ST - 1 := by
    intro u
    unfold decrementTimers
    by_cases h : 0 < u.ST <;> simp [h] <;> omega
  have hDT : ∀ u : Chip8, (decrementTimers u).1.DT = u.DT - 1 := by
    intro u
    unfold decrementTimers
    by_cases h : 0 < u.ST <;> by_cases h2 : 0 < u.DT <;> simp [h, h2] <;> omega
  have hemit : (decrementTimers s).2 = true ↔ s.ST = 1 := by
    unfold decrementTimers
    by_cases h : 0 < s.ST <;> simp [h, hreg] <;> omega
  have hrest : (decrementTimers s).1.V = s.V ∧ (decrementTimers s).1.Memory = s.Memory ∧
      (decrementTimers s).1.PC = s.PC ∧ (decrementTimers s).1.I = s.I ∧
      (decrementTimers s).1.SP = s.SP ∧ (decrementTimers s).1.Stack = s.Stack ∧
      (decrementTimers s).1.Screen = s.Screen ∧ (decrementTimers s).1.DrawFlag = s.DrawFlag ∧
      (decrementTimers s).1.keyboard = s.keyboard ∧ (decrementTimers s).1.lastKey = s.lastKey ∧
      (decrementTimers s).1.paused = s.paused := by
    unfold decrementTimers
    by_cases h : 0 < s.ST <;> simp [h]
  obtain ⟨hV, hM, hPC, hI, hSP, hStk, hScr, hDF, hKb, hLk, hPz⟩ := hrest
  refine ⟨fun _ => hST s, fun h0 => by rw [hST s]; omega, hemit, fun _ => hDT s,
    fun h0 => by rw [hDT s]; omega, by rw [hST s]; omega, by rw [hDT s]; omega,
    hV, hM, hPC, hI, hSP, hStk, hScr, hDF, hKb, hLk, hPz,
    fun t ht => by rw [timerTicks_DT]; omega⟩

/-- Claim C9 witness: the stop signal iff ST = 1, at the concrete machine
`c9w` (ST = 1, DT = 60, beep sink registered). -/
theorem c9_witness : (decrementTimers c9w).2 = true ↔ c9w.ST = 1 :=
  (c9_confirmed c9w rfl).2.2.1

/-- Claim C10 (confirmed): with no registered beep callback, executing
Fx18 with V[x] > 0 calls the nil callback, a runtime panic; the timer
tick's stop transition, by contrast, only ever invokes the callback when
one is registered. -/
theorem c10_confirmed (rnd : Nat) (s : Chip8) (hreg : s.beepRegistered = false)
    (hhi : s.opcode / 4096 % 16 = 15) (hkk : s.kk = 0x18) (hv : 0 < s.V s.x) :
    executeOpcode rnd s = StepResult.panic ∧
    (∀ t : Chip8, (decrementTimers t).2 = true → t.beepRegistered = true) := by
  constructor
  · simp [executeOpcode, hhi, hkk, hv, hreg]
  · intro t ht
    unfold decrementTimers at ht
    by_cases h : 0 < t.ST
    · simp [h] at ht
      exact ht.2
    · simp [h] at ht

/-- Claim C10 witness: the nil-callback panic at the concrete Fx18 state
`c10w`. -/
theorem c10_witness : executeOpcode 0 c10w = StepResult.panic :=
  (c10_confirmed 0 c10w rfl rfl rfl (by decide)).1

/-- Claim C4 counterexample: executing 8F14 (destination register VF) on
V[F] = 10, V[1] = 5 writes the carry flag 0 to VF and then overwrites it
with the sum `VF + V[1] = 5`, so VF ends at 5 while the carry flag of the
operation is 0. -/
theorem c4_counterexample :
    resVF (executeOpcode 0 c4sBad) = 5 ∧
    (if 255 < c4sBad.V c4sBad.x + c4sBad.V c4sBad.y then (1 : Nat) else 0) = 0 ∧
    c4sBad.x = 15 ∧ c4sBad.n = 4 := by
  refine ⟨?_, ?_, rfl, rfl⟩ <;> decide

/-- Claim C4 (amended): for every destination register index x other than
0xF, the ALU opcodes 8xy4/8xy5/8xy6/8xy7/8xyE leave VF equal to the
carry / not-borrow / dropped-bit flag of the operation, and
8xy0/8xy1/8xy2/8xy3 leave VF unchanged; for x = 0xF the subsequent
destination write clobbers the flag (see the counterexample). -/
theorem c4_amended (rnd : Nat) (s : Chip8) (hx : s.x ≠ 15)
    (hhi : s.opcode / 4096 % 16 = 8) :
    (s.n = 0 → resIsOk (executeOpcode rnd s) = true ∧ resVF (executeOpcode rnd s) = s.V 15) ∧
    (s.n = 1 → resIsOk (executeOpcode rnd s) = true ∧ resVF (executeOpcode rnd s) = s.V 15) ∧
    (s.n = 2 → resIsOk (executeOpcode rnd s) = true ∧ resVF (executeOpcode rnd s) = s.V 15) ∧
    (s.n = 3 → resIsOk (executeOpcode rnd s) = true ∧ resVF (executeOpcode rnd s) = s.V 15) ∧
    (s.n = 4 → resIsOk (executeOpcode rnd s) = true ∧
      resVF (executeOpcode rnd s) = if 255 < s.V s.x + s.V s.y then 1 else 0) ∧
    (s.n = 5 → resIsOk (executeOpcode rnd s) = true ∧
      resVF (executeOpcode rnd s) = if s.V s.y < s.V s.x then 1 else 0) ∧
    (s.n = 6 → resIsOk (executeOpcode rnd s) = true ∧
      resVF (executeOpcode rnd s) = s.V s.x % 2) ∧
    (s.n = 7 → resIsOk (executeOpcode rnd s) = true ∧
      resVF (executeOpcode rnd s) = if s.V s.x < s.V s.y then 1 else 0) ∧
    (s.n = 14 → resIsOk (executeOpcode rnd s) = true ∧
      resVF (executeOpcode rnd s) = s.V s.x / 128 % 2) := by
  have h15 : (15 : Nat) ≠ s.x := fun h => hx h.symm
  refine ⟨?_, ?_, ?_, ?_, ?_, ?_, ?_, ?_, ?_⟩ <;> intro hn <;>
    simp [executeOpcode, hhi, hn, resIsOk, resVF,
      Function.update_noteq h15, Function.update_same]

/-- Claim C4 witness: the amended claim's 8xy4 case at `c4w` (the
specification's carry example V1 = 0xFF, V2 = 0x01). -/
theorem c4_witness :
    resIsOk (executeOpcode 0 c4w) = true ∧
    resVF (executeOpcode 0 c4w) = if 255 < c4w.V c4w.x + c4w.V c4w.y then 1 else 0 :=
  (c4_amended 0 c4w (by decide) (by decide)).2.2.2.2.1 rfl

theorem fetchOpcode_char (s s2 : Chip8) (h : fetchOpcode s = some s2) :
    s2 = { s with
             opcode := s.Memory (s.PC % 65536) % 256 * 256 + s.Memory ((s.PC + 1) % 65536) % 256
             n := s.Memory ((s.PC + 1) % 65536) % 256 % 16
             x := s.Memory (s.PC % 65536) % 256 % 16
             y := s.Memory ((s.PC + 1) % 65536) % 256 / 16 % 16
             kk := s.Memory ((s.PC + 1) % 65536) % 256
             nnn := (s.Memory (s.PC % 65536) % 256 * 256 + s.Memory ((s.PC + 1) % 65536) % 256) % 4096
             PC := (s.PC + 2) % 65536 } := by
  unfold fetchOpcode at h
  split at h
  · exact (Option.some.inj h).symm
  · exact absurd h (by simp)

/-- Claim C1 counterexample: the instruction word 0x5121 matches no entry
of the specification's dispatch table (the table has only `5xy0` in group
5), yet `executeOpcode` does not return an UnknownOpcode error for it: the
group-5 handler has no secondary switch and executes 0x5121 as a
skip-if-equal. -/
theorem c1_counterexample :
    specTableRecognized 0x5121 = false ∧ c1sBad.opcode = 0x5121 ∧
    resIsErr (executeOpcode 0 c1sBad) = false ∧ resIsOk (executeOpcode 0 c1sBad) = true := by
  refine ⟨by decide, rfl, ?_, ?_⟩ <;> rfl

/-- Claim C1 (amended): for every fetched instruction word that the code's
dispatch does not recognize — group 0 keyed on the low byte with entries
E0/EE, group 8 on a low nibble in 0–7 or E, group 9 on low nibble 0,
group E on low byte 9E/A1, group F on one of the nine mapped low bytes,
while every other group (including group 5, whose handler ignores the low
nibble) accepts all of its words — `executeOpcode` returns the
unknown-opcode error carrying the raw opcode, PC equals its pre-fetch
value plus 2, and no machine state other than PC and the decode latches
was modified by the fetch/execute pair. -/
theorem c1_amended (rnd : Nat) (s s2 : Chip8) (hf : fetchOpcode s = some s2)
    (hu : codeRecognized s2.opcode = false) :
    executeOpcode rnd s2 = StepResult.err s2.opcode ∧
    s2.PC = (s.PC + 2) % 65536 ∧
    s2.V = s.V ∧ s2.Memory = s.Memory ∧ s2.Screen = s.Screen ∧ s2.Stack = s.Stack ∧
    s2.SP = s.SP ∧ s2.I = s.I ∧ s2.DT = s.DT ∧ s2.ST = s.ST ∧
    s2.DrawFlag = s.DrawFlag ∧ s2.keyboard = s.keyboard ∧ s2.lastKey = s.lastKey ∧
    s2.schipMode = s.schipMode ∧ s2.paused = s.paused ∧
    s2.beepRegistered = s.beepRegistered := by
  have hc := fetchOpcode_char s s2 hf
  set hb := s.Memory (s.PC % 65536) % 256 with hbdef
  set lb := s.Memory ((s.PC + 1) % 65536) % 256 with hlbdef
  have hblt : hb < 256 := by omega
  have hlblt : lb < 256 := by omega
  have hop : s2.opcode = hb * 256 + lb := by rw [hc]
  have hkk2 : s2.kk = lb := by rw [hc]
  have hn2 : s2.n = lb % 16 := by rw [hc]
  refine ⟨?_, by rw [hc], by rw [hc], by rw [hc], by rw [hc], by rw [hc], by rw [hc],
    by rw [hc], by rw [hc], by rw [hc], by rw [hc], by rw [hc], by rw [hc],
    by rw [hc], by rw [hc], by rw [hc]⟩
  unfold executeOpcode
  unfold codeRecognized at hu
  simp only [hop, hkk2, hn2] at hu ⊢
  have hkkm : (hb * 256 + lb) % 256 = lb := by omega
  have hnm : (hb * 256 + lb) % 16 = lb % 16 := by omega
  simp only [hkkm, hnm] at hu
  set d := (hb * 256 + lb) / 4096 % 16 with hddef
  have hdlt : d < 16 := by omega
  interval_cases d
  · simp at hu
    simp [hu]
  · simp at hu
  · simp at hu
  · simp at hu
  · simp at hu
  · simp at hu
  · simp at hu
  · simp at hu
  · simp at hu
    obtain ⟨h1, h2⟩ := hu
    have e0 : ¬(lb % 16 = 0) := by omega
    have e1 : ¬(lb % 16 = 1) := by omega
    have e2 : ¬(lb % 16 = 2) := by omega
    have e3 : ¬(lb % 16 = 3) := by omega
    have e4 : ¬(lb % 16 = 4) := by omega
    have e5 : ¬(lb % 16 = 5) := by omega
    have e6 : ¬(lb % 16 = 6) := by omega
    have e7 : ¬(lb % 16 = 7) := by omega
    have e14 : ¬(lb % 16 = 14) := by omega
    simp [e0, e1, e2, e3, e4, e5, e6, e7, e14]
  · simp at hu
    simp [hu]
  · simp at hu
  · simp at hu
  · simp at hu
  · simp at hu
  · simp at hu
    simp [hu]
  · simp at hu
    simp [hu]

/-- Claim C1 witness: the amended claim's error outcome at the fetched
word 0x8008 (group 8 with unmapped low nibble 8). -/
theorem c1_witness : executeOpcode 0 c1wPost = StepResult.err c1wPost.opcode :=
  (c1_amended 0 c1wPre c1wPost rfl (by decide)).1

theorem regIndicesOk_of_lt (I xr : Nat) (h : I + xr < 4096) : regIndicesOk I xr = true := by
  unfold regIndicesOk
  rw [List.all_eq_true]
  intro a ha
  rw [List.mem_range] at ha
  simp only [decide_eq_true_eq]
  omega

theorem storeRegsLoop_get (V : Nat → Nat) (I xr : Nat) (mem : Nat → Nat) (hmem : I + xr < 4096) :
    ∀ a, a ≤ xr → storeRegsLoop V I xr mem (I + a) = V a := by
  have key : ∀ k, k ≤ xr + 1 → ∀ (m : Nat → Nat) a, a < k →
      loopN (fun b m2 => Function.update m2 ((I + b) % 65536) (V b)) 0 k m (I + a) = V a := by
    intro k
    induction k with
    | zero => intro _ m a h; omega
    | succ k ih =>
      intro hk m a ha
      have hs := loopN_snoc (fun b m2 => Function.update m2 ((I + b) % 65536) (V b)) k 0 m
      rw [Nat.zero_add] at hs
      rw [hs]
      have hmod : (I + k) % 65536 = I + k := Nat.mod_eq_of_lt (by omega)
      by_cases hak : a = k
      · subst hak
        rw [hmod, Function.update_same]
      · rw [hmod, Function.update_noteq (by omega)]
        exact ih (by omega) m a (by omega)
  intro a ha
  exact key (xr + 1) (le_refl _) mem a (by omega)

theorem loadRegsLoop_get (mem : Nat → Nat) (I xr : Nat) (V : Nat → Nat) :
    ∀ a, a ≤ xr → loadRegsLoop mem I xr V a = mem ((I + a) % 65536) := by
  have key : ∀ k (v : Nat → Nat) a, a < k →
      loopN (fun b v2 => Function.update v2 b (mem ((I + b) % 65536))) 0 k v a
        = mem ((I + a) % 65536) := by
    intro k
    induction k with
    | zero => intro v a h; omega
    | succ k ih =>
      intro v a ha
      have hs := loopN_snoc (fun b v2 => Function.update v2 b (mem ((I + b) % 65536))) k 0 v
      rw [Nat.zero_add] at hs
      rw [hs]
      by_cases hak : a = k
      · subst hak
        rw [Function.update_same]
      · rw [Function.update_noteq hak]
        exact ih v a (by omega)
  intro a ha
  exact key (xr + 1) V a (by omega)

/-- Claim C5 (confirmed): with I + x within memory bounds, Fx55 stores
V0..Vx at I; re-running with arbitrary replacement registers and the same
I, Fx65 restores V0..Vx exactly.  Under `schipMode = true` — the default
that `Initialize` sets — I is unchanged by both instructions, and in
legacy mode (`schipMode = false`) each increments I by x + 1. -/
theorem c5_confirmed (rnd rnd2 : Nat) (s : Chip8) (newV : Nat → Nat)
    (hhi : s.opcode / 4096 % 16 = 15) (hkk : s.kk = 0x55)
    (hx : s.x < 16) (hmem : s.I + s.x < 4096) :
    resIsOk (executeOpcode rnd s) = true ∧
    (∀ s1, executeOpcode rnd s = StepResult.ok s1 none →
      (∀ a, a ≤ s.x → s1.Memory (s.I + a) = s.V a) ∧
      (s.schipMode = true → s1.I = s.I) ∧
      (s.schipMode = false → s1.I = (s.I + s.x + 1) % 65536) ∧
      resIsOk (executeOpcode rnd2
        { s1 with V := newV, I := s.I, opcode := 0xF065 + 256 * s.x, kk := 0x65,
                  n := 5, y := 6, nnn := (0xF065 + 256 * s.x) % 4096 }) = true ∧
      (∀ s3, executeOpcode rnd2
          { s1 with V := newV, I := s.I, opcode := 0xF065 + 256 * s.x, kk := 0x65,
                    n := 5, y := 6, nnn := (0xF065 + 256 * s.x) % 4096 }
            = StepResult.ok s3 none →
        (∀ a, a ≤ s.x → s3.V a = s.V a) ∧
        (s.schipMode = true → s3.I = s.I) ∧
        (s.schipMode = false → s3.I = (s.I + s.x + 1) % 65536))) ∧
    (∀ t : Chip8, (Initialize t).schipMode = true) := by
  have hok := regIndicesOk_of_lt s.I s.x hmem
  have hhi2 : (0xF065 + 256 * s.x) / 4096 % 16 = 15 := by omega
  refine ⟨?_, ?_, fun t => rfl⟩
  · simp [executeOpcode, hhi, hkk, hok, resIsOk]
  · intro s1 h1
    simp [executeOpcode, hhi, hkk, hok] at h1
    subst h1
    refine ⟨?_, ?_, ?_, ?_, ?_⟩
    · intro a ha
      simpa using storeRegsLoop_get s.V s.I s.x s.Memory hmem a ha
    · intro hm; simp [hm]
    · intro hm; simp [hm]
    · simp [executeOpcode, hhi2, hok, resIsOk]
    · intro s3 h3
      simp [executeOpcode, hhi2, hok] at h3
      subst h3
      refine ⟨?_, ?_, ?_⟩
      · intro a ha
        have h := loadRegsLoop_get (storeRegsLoop s.V s.I s.x s.Memory) s.I s.x newV a ha
        have hmod : (s.I + a) % 65536 = s.I + a := Nat.mod_eq_of_lt (by omega)
        rw [hmod, storeRegsLoop_get s.V s.I s.x s.Memory hmem a ha] at h
        simpa using h
      · intro hm; simp [hm]
      · intro hm; simp [hm]

/-- Claim C5 witness: the round-trip instance at `c5w` (store V0..V2 at
I = 0x300): the Fx55 step completes normally. -/
theorem c5_witness : resIsOk (executeOpcode 0 c5w) = true :=
  (c5_confirmed 0 0 c5w (fun _ => 0) rfl rfl (by decide) (by decide)).1

theorem px_eq (col j : Nat) : px col j = (col + (7 - j)) % 64 := by
  unfold px
  exact Nat.mod_mod_of_dvd _ (by norm_num)

theorem py_eq (row i : Nat) : py row i = (row + i) % 32 := by
  unfold py
  exact Nat.mod_mod_of_dvd _ (by norm_num)

theorem px_inj {col j1 j2 : Nat} (h1 : j1 < 8) (h2 : j2 < 8)
    (h : px col j1 = px col j2) : j1 = j2 := by
  rw [px_eq, px_eq] at h
  omega

theorem py_inj {row i1 i2 : Nat} (h1 : i1 < 32) (h2 : i2 < 32)
    (h : py row i1 = py row i2) : i1 = i2 := by
  rw [py_eq, py_eq] at h
  omega

theorem inner_untouched (col row sb i : Nat) :
    ∀ (k st : Nat) (acc : (Nat → Nat → Nat) × Nat) (p q : Nat),
      (∀ j, st ≤ j → j < st + k → ¬(p = px col j ∧ q = py row i)) →
      (loopN (drawBitStep col row sb i) st k acc).1 p q = acc.1 p q := by
  intro k
  induction k with
  | zero => intro st acc p q _; rfl
  | succ k ih =>
    intro st acc p q h
    rw [loopN_snoc]
    simp only [drawBitStep, upd2]
    rw [if_neg (h (st + k) (by omega) (by omega))]
    exact ih st acc p q fun j h1 h2 => h j h1 (by omega)

theorem inner_hit (col row sb i : Nat) :
    ∀ (k st : Nat) (acc : (Nat → Nat → Nat) × Nat) (j : Nat),
      st + k ≤ 8 → st ≤ j → j < st + k →
      (loopN (drawBitStep col row sb i) st k acc).1 (px col j) (py row i)
        = Nat.xor (acc.1 (px col j) (py row i)) (sb / 2 ^ j % 2) := by
  intro k
  induction k with
  | zero => intro st acc j _ h1 h2; omega
  | succ k ih =>
    intro st acc j hk h1 h2
    rw [loopN_snoc]
    simp only [drawBitStep, upd2]
    by_cases hj : j = st + k
    · subst hj
      rw [if_pos ⟨rfl, trivial⟩]
      rw [inner_untouched col row sb i k st acc _ _
        (fun j2 _ hj2 hpq => absurd (px_inj (by omega) (by omega) hpq.1) (by omega))]
    · rw [if_neg fun hpq => hj (px_inj (by omega) (by omega) hpq.1)]
      exact ih st acc j (by omega) h1 (by omega)

theorem inner_vf_one (col row sb i : Nat) :
    ∀ (k st : Nat) (acc : (Nat → Nat → Nat) × Nat), acc.2 = 1 →
      (loopN (drawBitStep col row sb i) st k acc).2 = 1 := by
  intro k
  induction k with
  | zero => intro st acc h; exact h
  | succ k ih =>
    intro st acc h
    rw [loopN]
    apply ih
    simp only [drawBitStep]
    split
    · rfl
    · exact h

theorem inner_vf_hit (col row sb i : Nat) :
    ∀ (k st : Nat) (acc : (Nat → Nat → Nat) × Nat) (j : Nat),
      st + k ≤ 8 → st ≤ j → j < st + k → sb / 2 ^ j % 2 = 1 →
      acc.1 (px col j) (py row i) = 1 →
      (loopN (drawBitStep col row sb i) st k acc).2 = 1 := by
  intro k
  induction k with
  | zero => intro st acc j _ h1 h2 _ _; omega
  | succ k ih =>
    intro st acc j hk h1 h2 hbit hpix
    rw [loopN_snoc]
    simp only [drawBitStep]
    by_cases hj : j = st + k
    · subst hj
      rw [inner_untouched col row sb i k st acc _ _
        (fun j2 _ hj2 hpq => absurd (px_inj (by omega) (by omega) hpq.1) (by omega))]
      rw [if_pos ⟨hbit, hpix⟩]
    · have hrec := ih st acc j (by omega) h1 (by omega) hbit hpix
      split
      · rfl
      · exact hrec

theorem inner_vf_miss (col row sb i : Nat) :
    ∀ (k st : Nat) (acc : (Nat → Nat → Nat) × Nat),
      st + k ≤ 8 →
      (∀ j, st ≤ j → j < st + k → ¬(sb / 2 ^ j % 2 = 1 ∧ acc.1 (px col j) (py row i) = 1)) →
      (loopN (drawBitStep col row sb i) st k acc).2 = acc.2 := by
  intro k
  induction k with
  | zero => intro st acc _ _; rfl
  | succ k ih =>
    intro st acc hk h
    rw [loopN_snoc]
    simp only [drawBitStep]
    rw [inner_untouched col row sb i k st acc _ _
      (fun j2 _ hj2 hpq => absurd (px_inj (by omega) (by omega) hpq.1) (by omega))]
    rw [if_neg (h (st + k) (by omega) (by omega))]
    exact ih st acc (by omega) fun j h1 h2 => h j h1 (by omega)

theorem outer_untouched (col row : Nat) (mem : Nat → Nat) (I : Nat) :
    ∀ (m st : Nat) (acc : (Nat → Nat → Nat) × Nat) (p q : Nat),
      (∀ i j, st ≤ i → i < st + m → j < 8 → ¬(p = px col j ∧ q = py row i)) →
      (loopN (rowStep col row mem I) st m acc).1 p q = acc.1 p q := by
  intro m
  induction m with
  | zero => intro st acc p q _; rfl
  | succ m ih =>
    intro st acc p q h
    rw [loopN_snoc]
    simp only [rowStep]
    rw [inner_untouched col row (mem (I + (st + m))) (st + m) 8 0 _ p q
      (fun j _ hj2 => h (st + m) j (by omega) (by omega) (by omega))]
    exact ih st acc p q fun i j h1 h2 h3 => h i j h1 (by omega) h3

theorem outer_hit (col row : Nat) (mem : Nat → Nat) (I : Nat) :
    ∀ (m st : Nat) (acc : (Nat → Nat → Nat) × Nat) (i j : Nat),
      st + m ≤ 32 → st ≤ i → i < st + m → j < 8 →
      (loopN (rowStep col row mem I) st m acc).1 (px col j) (py row i)
        = Nat.xor (acc.1 (px col j) (py row i)) (mem (I + i) / 2 ^ j % 2) := by
  intro m
  induction m with
  | zero => intro st acc i j _ h1 h2 _; omega
  | succ m ih =>
    intro st acc i j hm h1 h2 hj
    rw [loopN_snoc]
    simp only [rowStep]
    by_cases hi : i = st + m
    · subst hi
      rw [inner_hit col row (mem (I + (st + m))) (st + m) 8 0 _ j (by omega) (by omega) (by omega)]
      rw [outer_untouched col row mem I m st acc _ _
        (fun i2 j2 _ hi2 _ hpq => absurd (py_inj (by omega) (by omega) hpq.2) (by omega))]
    · rw [inner_untouched col row (mem (I + (st + m))) (st + m) 8 0 _ _ _
        (fun j2 _ hj2 hpq => absurd (py_inj (by omega) (by omega) hpq.2) (by omega))]
      exact ih st acc i j (by omega) h1 (by omega) hj

theorem outer_vf_one (col row : Nat) (mem : Nat → Nat) (I : Nat) :
    ∀ (m st : Nat) (acc : (Nat → Nat → Nat) × Nat), acc.2 = 1 →
      (loopN (rowStep col row mem I) st m acc).2 = 1 := by
  intro m
  induction m with
  | zero => intro st acc h; exact h
  | succ m ih =>
    intro st acc h
    rw [loopN]
    apply ih
    exact inner_vf_one col row (mem (I + st)) st 8 0 acc h

theorem outer_vf_hit (col row : Nat) (mem : Nat → Nat) (I : Nat) :
    ∀ (m st : Nat) (acc : (Nat → Nat → Nat) × Nat) (i j : Nat),
      st + m ≤ 32 → st ≤ i → i < st + m → j < 8 →
      mem (I + i) / 2 ^ j % 2 = 1 → acc.1 (px col j) (py row i) = 1 →
      (loopN (rowStep col row mem I) st m acc).2 = 1 := by
  intro m
  induction m with
  | zero => intro st acc i j _ h1 h2 _ _ _; omega
  | succ m ih =>
    intro st acc i j hm h1 h2 hj hbit hpix
    rw [loopN_snoc]
    simp only [rowStep]
    by_cases hi : i = st + m
    · subst hi
      apply inner_vf_hit col row (mem (I + (st + m))) (st + m) 8 0 _ j (by omega) (by omega)
        (by omega) hbit
      rw [outer_untouched col row mem I m st acc _ _
        (fun i2 j2 _ hi2 _ hpq => absurd (py_inj (by omega) (by omega) hpq.2) (by omega))]
      exact hpix
    · exact inner_vf_one col row (mem (I + (st + m))) (st + m) 8 0 _
        (ih st acc i j (by omega) h1 (by omega) hj hbit hpix)

theorem outer_vf_miss (col row : Nat) (mem : Nat → Nat) (I : Nat) :
    ∀ (m st : Nat) (acc : (Nat → Nat → Nat) × Nat),
      st + m ≤ 32 →
      (∀ i j, st ≤ i → i < st + m → j < 8 →
        ¬(mem (I + i) / 2 ^ j % 2 = 1 ∧ acc.1 (px col j) (py row i) = 1)) →
      (loopN (rowStep col row mem I) st m acc).2 = acc.2 := by
  intro m
  induction m with
  | zero => intro st acc _ _; rfl
  | succ m ih =>
    intro st acc hm h
    rw [loopN_snoc]
    simp only [rowStep]
    have hcu : ∀ j2, 0 ≤ j2 → j2 < 0 + 8 →
        ¬(mem (I + (st + m)) / 2 ^ j2 % 2 = 1 ∧
          (loopN (rowStep col row mem I) st m acc).1 (px col j2) (py row (st + m)) = 1) := by
      intro j2 _ hj2 hpair
      rw [outer_untouched col row mem I m st acc _ _
        (fun i3 j3 _ hi4 _ hpq => absurd (py_inj (by omega) (by omega) hpq.2) (by omega))] at hpair
      exact h (st + m) j2 (by omega) (by omega) (by omega) hpair
    rw [inner_vf_miss col row (mem (I + (st + m))) (st + m) 8 0 _ (by omega) hcu]
    exact ih st acc (by omega) fun i j h1 h2 h3 => h i j h1 (by omega) h3

/-- Claim C3 (confirmed): with I + n within memory bounds, Dxyn XORs the n
sprite rows (8 bits wide, most significant bit leftmost) onto the screen
at wrapped coordinates ((V[x]+o) mod 64, (V[y]+i) mod 32), leaves every
other pixel unchanged, ends with VF = 1 exactly when some drawn 1-bit hit
a pixel that was already 1 (and VF = 0 otherwise, having been reset before
the loop), and sets the redraw flag unconditionally. -/
theorem c3_confirmed (rnd : Nat) (s : Chip8)
    (hhi : s.opcode / 4096 % 16 = 13) (hn : s.n < 16) (hmem : s.I + s.n ≤ 4096) :
    ∃ s2, executeOpcode rnd s = StepResult.ok s2 none ∧
      (∀ i o, i < s.n → o < 8 →
        s2.Screen ((s.V s.x + o) % 64) ((s.V s.y + i) % 32)
          = Nat.xor (s.Screen ((s.V s.x + o) % 64) ((s.V s.y + i) % 32))
              (s.Memory (s.I + i) / 2 ^ (7 - o) % 2)) ∧
      (∀ p q, (∀ i o, i < s.n → o < 8 →
          ¬(p = (s.V s.x + o) % 64 ∧ q = (s.V s.y + i) % 32)) →
        s2.Screen p q = s.Screen p q) ∧
      (s2.V 15 = 1 ↔ ∃ i o, i < s.n ∧ o < 8 ∧
        s.Memory (s.I + i) / 2 ^ (7 - o) % 2 = 1 ∧
        s.Screen ((s.V s.x + o) % 64) ((s.V s.y + i) % 32) = 1) ∧
      (s2.V 15 = 0 ∨ s2.V 15 = 1) ∧
      s2.DrawFlag = true ∧
      (∀ i, i ≠ 15 → s2.V i = s.V i) ∧ s2.PC = s.PC ∧ s2.Memory = s.Memory := by
  have hguard : (s.n = 0 ∨ s.I + s.n ≤ 4096) := Or.inr hmem
  refine ⟨{ s with
      Screen := (drawSpriteLoop (s.V s.x) (s.V s.y) s.Memory s.I s.n s.Screen).1
      V := Function.update s.V 15 (drawSpriteLoop (s.V s.x) (s.V s.y) s.Memory s.I s.n s.Screen).2
      DrawFlag := true }, ?_, ?_, ?_, ?_⟩
  · simp [executeOpcode, hhi, hguard]
  · intro i o hi ho
    have hh := outer_hit (s.V s.x) (s.V s.y) s.Memory s.I s.n 0 (s.Screen, 0) i (7 - o)
      (by omega) (by omega) (by omega) (by omega)
    have h7 : 7 - (7 - o) = o := by omega
    rw [px_eq, h7, py_eq] at hh
    exact hh
  · intro p q hfar
    exact outer_untouched (s.V s.x) (s.V s.y) s.Memory s.I s.n 0 (s.Screen, 0) p q
      (fun i j _ hi hj => by
        rw [px_eq, py_eq]
        exact hfar i (7 - j) (by omega) (by omega))
  · by_cases hcol : ∃ i o, i < s.n ∧ o < 8 ∧
        s.Memory (s.I + i) / 2 ^ (7 - o) % 2 = 1 ∧
        s.Screen ((s.V s.x + o) % 64) ((s.V s.y + i) % 32) = 1
    · obtain ⟨i, o, hi, ho, hbit, hpix⟩ := hcol
      have h1 : (drawSpriteLoop (s.V s.x) (s.V s.y) s.Memory s.I s.n s.Screen).2 = 1 := by
        unfold drawSpriteLoop
        apply outer_vf_hit (s.V s.x) (s.V s.y) s.Memory s.I s.n 0 (s.Screen, 0) i (7 - o)
          (by omega) (by omega) (by omega) (by omega) hbit
        have h7 : 7 - (7 - o) = o := by omega
        rw [px_eq, h7, py_eq]
        exact hpix
      refine ⟨⟨fun _ => ⟨i, o, hi, ho, hbit, hpix⟩, fun _ => ?_⟩, Or.inr ?_, rfl,
        fun i0 hi0 => Function.update_noteq hi0 _ _, rfl, rfl⟩
      · simp only [Function.update_same]
        exact h1
      · simp only [Function.update_same]
        exact h1
    · have h0 : (drawSpriteLoop (s.V s.x) (s.V s.y) s.Memory s.I s.n s.Screen).2 = 0 := by
        unfold drawSpriteLoop
        have hcond : ∀ i j, 0 ≤ i → i < 0 + s.n → j < 8 →
            ¬(s.Memory (s.I + i) / 2 ^ j % 2 = 1 ∧
              (s.Screen, 0).1 (px (s.V s.x) j) (py (s.V s.y) i) = 1) := by
          intro i j _ hi hj hpair
          apply hcol
          refine ⟨i, 7 - j, by omega, by omega, ?_, ?_⟩
          · have h7 : 7 - (7 - j) = j := by omega
            rw [h7]
            exact hpair.1
          · have hp2 := hpair.2
            rw [px_eq, py_eq] at hp2
            exact hp2
        rw [outer_vf_miss (s.V s.x) (s.V s.y) s.Memory s.I s.n 0 (s.Screen, 0) (by omega) hcond]
      refine ⟨⟨fun hv1 => ?_, fun hex => absurd hex hcol⟩, Or.inl ?_, rfl,
        fun i0 hi0 => Function.update_noteq hi0 _ _, rfl, rfl⟩
      · simp only [Function.update_same] at hv1
        rw [h0] at hv1
        exact absurd hv1 (by norm_num)
      · simp only [Function.update_same]
        exact h0

/-- Claim C3 witness: the confirmed claim at `c3w`, drawing the one-row
sprite 0x80 at (V0, V1) = (2, 3). -/
theorem c3_witness :
    ∃ s2, executeOpcode 0 c3w = StepResult.ok s2 none ∧
      (∀ i o, i < c3w.n → o < 8 →
        s2.Screen ((c3w.V c3w.x + o) % 64) ((c3w.V c3w.y + i) % 32)
          = Nat.xor (c3w.Screen ((c3w.V c3w.x + o) % 64) ((c3w.V c3w.y + i) % 32))
              (c3w.Memory (c3w.I + i) / 2 ^ (7 - o) % 2)) ∧
      (∀ p q, (∀ i o, i < c3w.n → o < 8 →
          ¬(p = (c3w.V c3w.x + o) % 64 ∧ q = (c3w.V c3w.y + i) % 32)) →
        s2.Screen p q = c3w.Screen p q) ∧
      (s2.V 15 = 1 ↔ ∃ i o, i < c3w.n ∧ o < 8 ∧
        c3w.Memory (c3w.I + i) / 2 ^ (7 - o) % 2 = 1 ∧
        c3w.Screen ((c3w.V c3w.x + o) % 64) ((c3w.V c3w.y + i) % 32) = 1) ∧
      (s2.V 15 = 0 ∨ s2.V 15 = 1) ∧
      s2.DrawFlag = true ∧
      (∀ i, i ≠ 15 → s2.V i = c3w.V i) ∧ s2.PC = c3w.PC ∧ s2.Memory = c3w.Memory :=
  c3_confirmed 0 c3w (by decide) (by decide) (by decide)

end Chip8Emu
